import Mathlib

/-!
dev-wasm-go: the WASI HTTP round tripper (`lib/http/client/transport.go`)

A shallow embedding of `transport.go` and theorems about it.

Conventions of the embedding.

* A Go `string` is an immutable sequence of bytes, so `GoString` is `List UInt8`.
  The conversions `[]uint8(s)` and `string(b)` copy the bytes and are the
  identity here.  String literals of the source are written `str "..."`.
* A Go `map[string][]string` is an association list whose keys are looked up
  with `hGet` and stored with `hSet`; a `nil` map is `none`.  The order in which
  `range` visits a map is not fixed by the language: `makeHeaders` takes the
  visited sequence as its argument.
* A `cm.Result` is `Bool`/`Option` valued at the places where the source only
  asks `IsOK()` or takes the pointer returned by `OK()`, which is `nil` for an
  error.  Dereferencing `nil` is a run-time panic.
* The host is an oracle (`Host`, `IncomingResponse`) that fixes what each host
  call answers; `RoundTrip` returns what it returns to its caller together with
  the sequence of host calls it made.  The only unbounded loop, the response
  body read loop, takes fuel.
-/

namespace Client

/-! ## Strings and header maps -/

abbrev Byte := UInt8

abbrev GoString := List Byte

/-- The bytes of a string literal of the source (Go source text is UTF-8). -/
def str (s : String) : GoString := s.toUTF8.data.toList

/-- The constant `DEFAULT_USER_AGENT` (transport.go:16). -/
def DEFAULT_USER_AGENT : GoString := str "WASI-HTTP-Go/0.0.2"

/-- An `http.Header`: a Go `map[string][]string`, as the list of its entries. -/
abbrev Header := List (GoString × List GoString)

/-- Map lookup `v, ok := h[k]`: `none` when the key is absent. -/
def hGet : Header → GoString → Option (List GoString)
  | [], _ => none
  | (k0, v) :: t, k => if k0 = k then some v else hGet t k

/-- Map store `h[k] = v`: replaces the entry of `k` or adds one. -/
def hSet : Header → GoString → List GoString → Header
  | [], k, v => [(k, v)]
  | (k0, v0) :: t, k, v => if k0 = k then (k, v) :: t else (k0, v0) :: hSet t k v

/-- The value `h[k]` of an index expression: the `nil` slice for an absent key. -/
def hIndex (h : Header) (k : GoString) : List GoString := (hGet h k).getD []

/-- A map value that may be `nil`, read as a map: `nil` has no entries. -/
def entriesOf : Option Header → Header
  | none => []
  | some h => h

/-! ## The `wasi:http/types` variants used by the transport -/

/-- The variant `wasi:http/types#scheme`. -/
inductive Scheme where
  | HTTP
  | HTTPS
  | Other (s : GoString)
  deriving DecidableEq, Repr

/-- The variant `wasi:http/types#method`. -/
inductive Method where
  | Get
  | Head
  | Post
  | Put
  | Delete
  | Connect
  | Options
  | Trace
  | Patch
  | Other (m : GoString)
  deriving DecidableEq, Repr

abbrev FieldKey := GoString

abbrev FieldValue := List Byte

/-- Transport.go:35. -/
def schemeFromString (s : GoString) : Scheme :=
  if s = str "http" then Scheme.HTTP
  else if s = str "https" then Scheme.HTTPS
  else Scheme.Other s

/-- Transport.go:46. -/
def methodFromString (m : GoString) : Method :=
  if m = str "GET" then Method.Get
  else if m = str "PUT" then Method.Put
  else if m = str "POST" then Method.Post
  else if m = str "DELETE" then Method.Delete
  else if m = str "OPTIONS" then Method.Options
  else if m = str "PATCH" then Method.Patch
  else if m = str "CONNECT" then Method.Connect
  else if m = str "TRACE" then Method.Trace
  else Method.Other m

/-- The eight strings that have a `case` in `methodFromString`. -/
def supportedMethods : List GoString :=
  [str "GET", str "PUT", str "POST", str "DELETE", str "OPTIONS", str "PATCH",
   str "CONNECT", str "TRACE"]

/-- The eight verb variants that `methodFromString` returns for a `case`. -/
def enumeratedVerbs : List Method :=
  [Method.Get, Method.Put, Method.Post, Method.Delete, Method.Options, Method.Patch,
   Method.Connect, Method.Trace]

/-! ## Requests and responses of `net/http` -/

/-- The fields of `url.URL` that the transport reads; `RequestURI` is the value
of the method call `URL.RequestURI()`. -/
structure URL where
  Scheme : GoString
  Host : GoString
  RequestURI : GoString

/-- The fields of `http.Request` that the transport reads.  `Body` is `none` for
a `nil` body, and otherwise what `io.ReadAll` makes of it: the bytes, or the
message of the read error. -/
structure Request where
  Method : GoString
  URL : URL
  Header : Option Header
  Body : Option (Except String (List Byte))
  ContentLength : Int
  Close : Bool
  Host : GoString

/-- The fields of `http.Response` that the transport fills; `Body` is the
content of the `bytes.Reader` handed back. -/
structure Response where
  StatusCode : Int
  Header : Option Header
  Body : List Byte
  deriving DecidableEq

/-- The conversion `int(x)` of an `int64` to an `int` of `bits` bits. -/
def toInt (bits : Nat) (x : Int) : Int :=
  (x + 2 ^ (bits - 1)) % 2 ^ bits - 2 ^ (bits - 1)

/-- Decimal rendering `strconv.Itoa`. -/
def Itoa (i : Int) : GoString := str (toString i)

/-- Transport.go:86.  `intBits` is the width of `int` on the platform. -/
def initHeaders (intBits : Nat) (r : Request) : Request :=
  let h0 : Header := entriesOf r.Header
  let h1 : Header :=
    if (hGet h0 (str "User-Agent")).isSome then h0
    else hSet h0 (str "User-Agent") [DEFAULT_USER_AGENT]
  let h2 : Header :=
    if r.Close then hSet h1 (str "Connection") [str "close"] else h1
  let h3 : Header :=
    if r.Body.isSome then
      if (hGet h2 (str "Content-Length")).isSome then h2
      else if r.ContentLength > 0 then
        hSet h2 (str "Content-Length") [Itoa (toInt intBits r.ContentLength)]
      else h2
    else h2
  { r with Header := some h3 }

/-- Transport.go:105.  `visited` is the sequence of entries that
`range r.Header` yields. -/
def makeHeaders (visited : List (GoString × List GoString)) : List (FieldKey × FieldValue) :=
  visited.foldl (fun strstr kv => kv.2.foldl (fun acc s => acc ++ [(kv.1, s)]) strstr) []

/-- Transport.go:121. -/
def getAuthority (r : Request) : GoString :=
  if r.Host.length > 0 then r.Host else r.URL.Host

/-- Transport.go:129. -/
def populateResponseHeaders (fields : List (FieldKey × FieldValue)) (r : Response) : Response :=
  let h0 : Header := entriesOf r.Header
  { r with Header := some (fields.foldl (fun h field => hSet h field.1 (hIndex h field.1 ++ [field.2])) h0) }

/-! ## The host: resources, host calls and their answers -/

/-- The host resources of one exchange, by the variable of `RoundTrip` that
holds them. -/
inductive Res where
  | fields
  | outgoingRequest
  | outgoingBody
  | outputStream
  | future
  | futurePollable
  | incomingResponse
  | responseFields
  | incomingBody
  | inputStream
  | inputPollable
  deriving DecidableEq, Repr

/-- The variant `wasi:io/streams#stream-error`. -/
inductive StreamError where
  | lastOperationFailed
  | closed
  deriving DecidableEq, Repr

/-- The answer of one `stream.Read`. -/
inductive ReadResult where
  | ok (chunk : List Byte)
  | err (e : StreamError)
  deriving DecidableEq, Repr

/-- What the host answers on an incoming response: `consume` and `stream` tell
whether `Consume()` and `Stream()` are OK, and `read k` is the answer of the
`k`-th `Read` of the body stream (counting from 0). -/
structure IncomingResponse where
  status : Nat
  entries : List (FieldKey × FieldValue)
  consume : Bool
  stream : Bool
  read : Nat → ReadResult

/-- The answer of `future.Get()`, an
`option<result<result<incoming-response, error-code>>>`. -/
inductive FutureResult where
  | pending
  | handlerError
  | httpError
  | response (resp : IncomingResponse)

/-- The shape of a `FutureResult`, without the response. -/
inductive Probe where
  | pending
  | handlerError
  | httpError
  | response
  deriving DecidableEq, Repr

/-- Shape of an answer of `future.Get()`. -/
def FutureResult.probe : FutureResult → Probe
  | FutureResult.pending => Probe.pending
  | FutureResult.handlerError => Probe.handlerError
  | FutureResult.httpError => Probe.httpError
  | FutureResult.response _ => Probe.response

/-- What the host answers during one exchange. -/
structure Host where
  fieldsFromList : List (FieldKey × FieldValue) → Bool
  requestBody : Bool
  bodyWrite : Bool
  handle : Bool
  firstGet : FutureResult
  secondGet : FutureResult

/-- What the Go implementation leaves open: the width of `int` and the order in
which `range` visits the entries of a map. -/
structure Platform where
  intBits : Nat
  range : Header → List (GoString × List GoString)

/-- One host call, with the part of its answer that decides what the guest
owns afterwards. -/
inductive Ev where
  | fieldsFromList (entries : List (FieldKey × FieldValue)) (ok : Bool)
  | newOutgoingRequest
  | setMethod (m : Method)
  | setPathWithQuery (p : Option GoString)
  | setScheme (s : Option Scheme)
  | setAuthority (a : Option GoString)
  | requestBody (ok : Bool)
  | bodyWrite (ok : Bool)
  | blockingWriteAndFlush (contents : List Byte)
  | handle (ok : Bool)
  | outgoingBodyFinish (trailers : Option (List (FieldKey × FieldValue)))
  | futureGet (answer : Probe)
  | futureSubscribe
  | block (p : Res)
  | status
  | headers
  | entries
  | consume (ok : Bool)
  | bodyStream (ok : Bool)
  | streamSubscribe
  | read (max : Nat)
  | resourceDrop (r : Res)
  deriving DecidableEq, Repr

/-- The body-finish call `types.OutgoingBodyFinish`. -/
def Ev.isFinish : Ev → Bool
  | Ev.outgoingBodyFinish _ => true
  | _ => false

/-- The acquisition of the write sink, `body.Write()`. -/
def Ev.isSink : Ev → Bool
  | Ev.bodyWrite _ => true
  | _ => false

/-- The call `BlockingWriteAndFlush`. -/
def Ev.isWrite : Ev → Bool
  | Ev.blockingWriteAndFlush _ => true
  | _ => false

/-- A `stream.Read`. -/
def Ev.isRead : Ev → Bool
  | Ev.read _ => true
  | _ => false

/-- A `future.Get()`. -/
def Ev.isGet : Ev → Bool
  | Ev.futureGet _ => true
  | _ => false

/-- A `Subscribe()` on the future or on the stream. -/
def Ev.isSubscribe : Ev → Bool
  | Ev.futureSubscribe => true
  | Ev.streamSubscribe => true
  | _ => false

/-- A `Block()` on a pollable. -/
def Ev.isBlock : Ev → Bool
  | Ev.block _ => true
  | _ => false

/-- A call on the incoming response or on what is obtained from it. -/
def Ev.isExtract : Ev → Bool
  | Ev.status => true
  | Ev.headers => true
  | Ev.entries => true
  | Ev.consume _ => true
  | Ev.bodyStream _ => true
  | Ev.read _ => true
  | _ => false

/-- The resource whose owned handle the call hands to the guest, if any. -/
def Ev.acquires : Ev → Option Res
  | Ev.fieldsFromList _ true => some Res.fields
  | Ev.newOutgoingRequest => some Res.outgoingRequest
  | Ev.requestBody true => some Res.outgoingBody
  | Ev.bodyWrite true => some Res.outputStream
  | Ev.handle true => some Res.future
  | Ev.futureGet Probe.response => some Res.incomingResponse
  | Ev.futureSubscribe => some Res.futurePollable
  | Ev.headers => some Res.responseFields
  | Ev.consume true => some Res.incomingBody
  | Ev.bodyStream true => some Res.inputStream
  | Ev.streamSubscribe => some Res.inputPollable
  | _ => none

/-- How often a handle of resource `r` was handed to the guest. -/
def acquireCount (r : Res) (trace : List Ev) : Nat :=
  trace.countP (fun e => decide (e.acquires = some r))

/-- How often `ResourceDrop` was called on resource `r`. -/
def dropCount (r : Res) (trace : List Ev) : Nat :=
  trace.countP (fun e => decide (e = Ev.resourceDrop r))

/-! ## `RoundTrip` -/

/-- What `RoundTrip` does for its caller: `response r` is `return &r, nil`,
`error msg` is `return nil, err`, `panic msg` is an abort, and `running` says
that the fuel ran out inside the read loop. -/
inductive Outcome where
  | response (r : Response)
  | error (msg : String)
  | panic (msg : String)
  | running
  deriving DecidableEq

/-- The outcome of a run and the host calls made, in order. -/
structure Run where
  outcome : Outcome
  trace : List Ev

/-- The message of the run-time panic of a `nil` dereference. -/
def nilDereference : String := "runtime error: invalid memory address or nil pointer dereference"

/-- Leave the function: the deferred `ResourceDrop` calls run, last deferred
first (`deferred` has the last one at its head). -/
def leave (out : Outcome) (trace : List Ev) (deferred : List Res) : Run :=
  ⟨out, trace ++ deferred.map Ev.resourceDrop⟩

/-- How the read loop ends. -/
inductive LoopExit where
  | done (data : List Byte)
  | failed
  | running
  deriving DecidableEq

/-- The loop of transport.go:209-219.  `k` reads were issued so far, `data` is
the buffer and `trace` the host calls so far. -/
def readLoop (read : Nat → ReadResult) : Nat → Nat → List Byte → List Ev → LoopExit × List Ev
  | 0, _, _, trace => (LoopExit.running, trace)
  | fuel + 1, k, data, trace =>
    match read k with
    | ReadResult.ok chunk =>
      readLoop read fuel (k + 1) (data ++ chunk)
        (trace ++ [Ev.block Res.inputPollable, Ev.read (64 * 1024)])
    | ReadResult.err StreamError.closed =>
      (LoopExit.done data, trace ++ [Ev.block Res.inputPollable, Ev.read (64 * 1024)])
    | ReadResult.err StreamError.lastOperationFailed =>
      (LoopExit.failed, trace ++ [Ev.block Res.inputPollable, Ev.read (64 * 1024)])

/-- Transport.go:190-223: the response is read from `resp`.  The future and its
pollable are already deferred. -/
def readResponse (resp : IncomingResponse) (trace : List Ev) (fuel : Nat) : Run :=
  let response : Response :=
    populateResponseHeaders resp.entries ⟨(resp.status : Int), some [], []⟩
  let t1 := trace ++ [Ev.status, Ev.headers, Ev.entries, Ev.resourceDrop Res.responseFields,
    Ev.consume resp.consume]
  if !resp.consume then
    leave (Outcome.panic nilDereference) t1 [Res.incomingResponse, Res.futurePollable, Res.future]
  else
    let t2 := t1 ++ [Ev.bodyStream resp.stream]
    if !resp.stream then
      leave (Outcome.panic nilDereference) t2
        [Res.incomingBody, Res.incomingResponse, Res.futurePollable, Res.future]
    else
      let deferred := [Res.inputPollable, Res.inputStream, Res.incomingBody,
        Res.incomingResponse, Res.futurePollable, Res.future]
      let loop := readLoop resp.read fuel 0 [] (t2 ++ [Ev.streamSubscribe])
      match loop.1 with
      | LoopExit.done data =>
        leave (Outcome.response { response with Body := data }) loop.2 deferred
      | LoopExit.failed =>
        leave (Outcome.error "error reading response stream") loop.2 deferred
      | LoopExit.running => ⟨Outcome.running, loop.2⟩

/-- Transport.go:170-188: the request is handed to the host and the future is
awaited. -/
def exchange (host : Host) (trace : List Ev) (fuel : Nat) : Run :=
  let t1 := trace ++ [Ev.handle host.handle]
  if !host.handle then
    leave (Outcome.panic "Failed to call client.") t1 []
  else if !host.requestBody then
    leave (Outcome.panic nilDereference) t1 []
  else
    let t2 := t1 ++ [Ev.outgoingBodyFinish none, Ev.futureGet host.firstGet.probe]
    match host.firstGet with
    | FutureResult.pending =>
      let t3 := t2 ++ [Ev.futureSubscribe, Ev.block Res.futurePollable,
        Ev.futureGet host.secondGet.probe]
      match host.secondGet with
      | FutureResult.response resp => readResponse resp t3 fuel
      | _ => leave (Outcome.panic nilDereference) t3 [Res.futurePollable, Res.future]
    | _ => leave (Outcome.error "result already taken") t2 [Res.future]

/-- The host calls of transport.go:153-159: the outgoing request is made from
the headers and set up, and its body is asked for. -/
def requestCalls (host : Host) (r : Request) : List Ev :=
  [Ev.newOutgoingRequest, Ev.setMethod (methodFromString r.Method),
    Ev.setPathWithQuery (some r.URL.RequestURI),
    Ev.setScheme (some (schemeFromString r.URL.Scheme)),
    Ev.setAuthority (some (getAuthority r)), Ev.requestBody host.requestBody]

/-- Transport.go:140, `WasiRoundTripper.RoundTrip`. -/
def RoundTrip (p : Platform) (host : Host) (r0 : Request) (fuel : Nat) : Run :=
  let r := initHeaders p.intBits r0
  let list := makeHeaders (p.range (entriesOf r.Header))
  let t1 := [Ev.fieldsFromList list (host.fieldsFromList list)]
  if !host.fieldsFromList list then
    leave (Outcome.panic nilDereference) t1 []
  else
    let t2 := t1 ++ requestCalls host r
    match r.Body with
    | none => exchange host t2 fuel
    | some (Except.error err) => leave (Outcome.error err) t2 []
    | some (Except.ok b) =>
      if !host.requestBody then
        leave (Outcome.panic nilDereference) t2 []
      else
        let t3 := t2 ++ [Ev.bodyWrite host.bodyWrite]
        if !host.bodyWrite then
          leave (Outcome.panic nilDereference) t3 []
        else
          exchange host
            (t3 ++ [Ev.blockingWriteAndFlush b, Ev.resourceDrop Res.outputStream]) fuel


/-- The host calls of transport.go:143-168, which build the request and write
its body. -/
def Ev.isBuild : Ev → Bool
  | Ev.fieldsFromList _ _ => true
  | Ev.newOutgoingRequest => true
  | Ev.setMethod _ => true
  | Ev.setPathWithQuery _ => true
  | Ev.setScheme _ => true
  | Ev.setAuthority _ => true
  | Ev.requestBody _ => true
  | Ev.bodyWrite _ => true
  | Ev.blockingWriteAndFlush _ => true
  | Ev.resourceDrop Res.outputStream => true
  | _ => false

/-! ## How far an exchange gets -/

/-- The host calls of `n` rounds of the read loop. -/
def readCalls : Nat → List Ev
  | 0 => []
  | n + 1 => Ev.block Res.inputPollable :: Ev.read (64 * 1024) :: readCalls n

/-- The request body, if there is one, is read and written: `io.ReadAll`
succeeds, and `req.Body()` and `body.Write()` are OK. -/
def BodyWritten (host : Host) (r : Request) : Prop :=
  match r.Body with
  | none => True
  | some b => (∃ contents, b = Except.ok contents) ∧ host.requestBody = true ∧
      host.bodyWrite = true

/-- The exchange reaches the call of the host handler: the field list of the
headers is accepted and the body, if any, is written. -/
def ReachesHandle (p : Platform) (host : Host) (r : Request) : Prop :=
  host.fieldsFromList
    (makeHeaders (p.range (entriesOf (initHeaders p.intBits r).Header))) = true ∧
  BodyWritten host r

/-- The submission is accepted and the outgoing body is finished, so that the
future is probed. -/
def Submitted (p : Platform) (host : Host) (r : Request) : Prop :=
  ReachesHandle p host r ∧ host.handle = true ∧ host.requestBody = true

/-- The exchange is answered by the response `resp`, after one wait on the
future, and the body stream of `resp` is obtained. -/
def Delivers (p : Platform) (host : Host) (r : Request) (resp : IncomingResponse) : Prop :=
  Submitted p host r ∧ host.firstGet = FutureResult.pending ∧
  host.secondGet = FutureResult.response resp ∧ resp.consume = true ∧ resp.stream = true

/-! ## Sample inputs -/

/-- The URL `http://example/test`. -/
def sampleURL : URL := ⟨str "http", str "example", str "/test"⟩

/-- A GET of `http://example/test` without body, with the header `X-Test: 1`. -/
def getRequest : Request :=
  ⟨str "GET", sampleURL, some [(str "X-Test", [str "1"])], none, 0, false, []⟩

/-- A POST with the five byte body `hello` and `ContentLength` 5, no headers. -/
def postRequest : Request :=
  ⟨str "POST", sampleURL, some [], some (Except.ok (str "hello")), 5, false, []⟩

/-- A POST whose body is present and empty, with `ContentLength` 0: what
`http.NewRequest` builds from an empty reader (`http.NoBody`). -/
def emptyBodyRequest : Request :=
  ⟨str "POST", sampleURL, some [], some (Except.ok []), 0, false, []⟩

/-- A POST whose body has the known length 2^32 + 5. -/
def hugeBodyRequest : Request :=
  ⟨str "POST", sampleURL, some [], some (Except.ok []), 4294967301, false, []⟩

/-- A POST whose caller set `Content-Length` and `User-Agent` itself. -/
def explicitRequest : Request :=
  ⟨str "POST", sampleURL,
    some [(str "Content-Length", [str "7"]), (str "User-Agent", [str "curl/8"])],
    some (Except.ok (str "hello")), 5, true, []⟩

/-- A platform with 64 bit `int` whose `range` visits a map in list order. -/
def samplePlatform : Platform := ⟨64, fun h => h⟩

/-- Status 200, `Content-Type: text/plain`, and the body `hello` in one chunk. -/
def helloResponse : IncomingResponse :=
  ⟨200, [(str "Content-Type", str "text/plain")], true, true,
    fun k => if k = 0 then ReadResult.ok (str "hello") else ReadResult.err StreamError.closed⟩

/-- Three chunks of 64 KiB, 64 KiB and 13 bytes, then the closed signal. -/
def threeChunks : List (List Byte) :=
  [List.replicate 65536 1, List.replicate 65536 2, List.replicate 13 3]

/-- A response whose body stream yields `threeChunks` and is then closed. -/
def threeChunkResponse : IncomingResponse :=
  ⟨200, [], true, true,
    fun k => match threeChunks.get? k with
      | some c => ReadResult.ok c
      | none => ReadResult.err StreamError.closed⟩

/-- A response whose body stream fails after one chunk. -/
def brokenResponse : IncomingResponse :=
  ⟨200, [(str "Content-Type", str "text/plain")], true, true,
    fun k => if k = 0 then ReadResult.ok (str "hel")
      else ReadResult.err StreamError.lastOperationFailed⟩

/-- A host that accepts everything and answers, after one wait, with `resp`. -/
def hostAnswering (resp : IncomingResponse) : Host :=
  ⟨fun _ => true, true, true, true, FutureResult.pending, FutureResult.response resp⟩

/-- A host whose handler rejects the submission. -/
def rejectingHost : Host :=
  ⟨fun _ => true, true, true, false, FutureResult.pending, FutureResult.response helloResponse⟩

/-- A host whose future already holds the response at the first probe. -/
def readyHost : Host :=
  ⟨fun _ => true, true, true, true, FutureResult.response helloResponse,
    FutureResult.handlerError⟩

/-- A header map with a name of two values and a name of one value. -/
def sampleHeader : Header :=
  [(str "Accept", [str "text/html", str "text/plain"]), (str "X-Test", [str "1"])]

/-- A header map with a name whose list of values is empty. -/
def emptyValueHeader : Header := [(str "X-Empty", [])]

/-- The values that a field list gives to the name `k`, in order. -/
def valuesOf (fields : List (FieldKey × FieldValue)) (k : GoString) : List GoString :=
  (fields.filter (fun f => decide (f.1 = k))).map Prod.snd

/-! ## Header maps -/

theorem hGet_hSet (h : Header) (k k1 : GoString) (v : List GoString) :
    hGet (hSet h k v) k1 = if k = k1 then some v else hGet h k1 := by
  induction h with
  | nil => simp [hSet, hGet]
  | cons e t ih =>
    obtain ⟨k0, v0⟩ := e
    by_cases h0 : k0 = k
    · subst h0
      by_cases h1 : k0 = k1 <;> simp [hSet, hGet, h1]
    · by_cases h1 : k = k1
      · subst h1
        simp [hSet, hGet, h0, ih]
      · by_cases h2 : k0 = k1
        · subst h2
          simp [hSet, hGet, h0, h1]
        · simp [hSet, hGet, h0, h1, h2, ih]

theorem hGet_hSet_same (h : Header) (k : GoString) (v : List GoString) :
    hGet (hSet h k v) k = some v := by
  simp [hGet_hSet]

theorem hGet_hSet_other (h : Header) (k k1 : GoString) (v : List GoString) (hne : k ≠ k1) :
    hGet (hSet h k v) k1 = hGet h k1 := by
  simp [hGet_hSet, hne]

theorem entriesOf_some (h : Header) : entriesOf (some h) = h := rfl

/-! ## `methodFromString` -/

/-- C3: `methodFromString` restricted to the eight strings GET, PUT, POST,
DELETE, OPTIONS, PATCH, CONNECT, TRACE is a bijection onto the eight verb
variants Get, Put, Post, Delete, Options, Patch, Connect, Trace, and every other
string `m` is mapped to the Other variant carrying `m`, never to Get. -/
theorem methodFromString_bijective_on_supported :
    Set.BijOn methodFromString {m | m ∈ supportedMethods} {v | v ∈ enumeratedVerbs} ∧
    ∀ m : GoString, m ∉ supportedMethods →
      methodFromString m = Method.Other m ∧ methodFromString m ≠ Method.Get := by
  have hmap : supportedMethods.map methodFromString = enumeratedVerbs := by decide
  have hnodup : enumeratedVerbs.Nodup := by decide
  refine ⟨⟨?_, ?_, ?_⟩, ?_⟩
  · intro m hm
    have : methodFromString m ∈ supportedMethods.map methodFromString :=
      List.mem_map_of_mem _ hm
    rw [hmap] at this
    exact this
  · intro a ha b hb hab
    exact List.inj_on_of_nodup_map (hmap ▸ hnodup) ha hb hab
  · intro v hv
    have hv2 : v ∈ supportedMethods.map methodFromString := by rw [hmap]; exact hv
    obtain ⟨m, hm, rfl⟩ := List.mem_map.mp hv2
    exact ⟨m, hm, rfl⟩
  · intro m hm
    simp only [supportedMethods, List.mem_cons, List.mem_singleton, not_or, List.not_mem_nil,
      or_false] at hm
    obtain ⟨h1, h2, h3, h4, h5, h6, h7, h8⟩ := hm
    have : methodFromString m = Method.Other m := by
      simp [methodFromString, h1, h2, h3, h4, h5, h6, h7, h8]
    rw [this]
    exact ⟨rfl, by simp⟩

theorem methodFromString_bijective_on_supported_witness :
    str "HEAD" ∉ supportedMethods ∧
      (methodFromString (str "HEAD") = Method.Other (str "HEAD") ∧
        methodFromString (str "HEAD") ≠ Method.Get) :=
  ⟨by decide, methodFromString_bijective_on_supported.2 (str "HEAD") (by decide)⟩


/-! ## `initHeaders` -/

theorem toInt_of_fits (bits : Nat) (n : Nat) (hn : n < 2 ^ (bits - 1)) (hpos : 0 < n) :
    toInt bits (n : Int) = (n : Int) := by
  have hb : 1 ≤ bits := by
    rcases Nat.eq_zero_or_pos bits with h | h
    · subst h
      simp at hn
      omega
    · exact h
  have h2 : (2 : Int) ^ bits = 2 * 2 ^ (bits - 1) := by
    have : bits = (bits - 1) + 1 := by omega
    conv_lhs => rw [this]
    rw [pow_succ]
    ring
  have hn2 : (n : Int) < 2 ^ (bits - 1) := by exact_mod_cast hn
  have hp : (0 : Int) < 2 ^ (bits - 1) := by positivity
  unfold toInt
  rw [Int.emod_eq_of_lt (by omega) (by omega)]
  omega

/-- C10: after `initHeaders`, a request whose caller supplied no `User-Agent`
header has that header with the single value `WASI-HTTP-Go/0.0.2`; a request
whose caller supplied one keeps its values unchanged, and no default is added. -/
theorem initHeaders_user_agent (bits : Nat) (r : Request) :
    (hGet (entriesOf r.Header) (str "User-Agent") = none →
      hGet (entriesOf (initHeaders bits r).Header) (str "User-Agent")
        = some [str "WASI-HTTP-Go/0.0.2"]) ∧
    (∀ v, hGet (entriesOf r.Header) (str "User-Agent") = some v →
      hGet (entriesOf (initHeaders bits r).Header) (str "User-Agent") = some v) := by
  have hc : str "Connection" ≠ str "User-Agent" := by decide
  have hl : str "Content-Length" ≠ str "User-Agent" := by decide
  simp only [initHeaders, entriesOf_some]
  generalize entriesOf r.Header = h0
  constructor
  · intro h
    simp only [h, Option.isSome_none, Bool.false_eq_true, if_false]
    split_ifs <;> simp [hGet_hSet, hc, hl, DEFAULT_USER_AGENT]
  · intro v h
    simp only [h, Option.isSome_some, if_true]
    split_ifs <;> simp [hGet_hSet, hc, hl, h]

theorem initHeaders_user_agent_witness :
    (hGet (entriesOf getRequest.Header) (str "User-Agent") = none ∧
      hGet (entriesOf (initHeaders 64 getRequest).Header) (str "User-Agent")
        = some [str "WASI-HTTP-Go/0.0.2"]) ∧
    (hGet (entriesOf explicitRequest.Header) (str "User-Agent") = some [str "curl/8"] ∧
      hGet (entriesOf (initHeaders 64 explicitRequest).Header) (str "User-Agent")
        = some [str "curl/8"]) :=
  ⟨⟨by decide, (initHeaders_user_agent 64 getRequest).1 (by decide)⟩,
   ⟨by decide, (initHeaders_user_agent 64 explicitRequest).2 _ (by decide)⟩⟩

/-- C2, as stated, fails for a present body of known length 0: no
`Content-Length` header is synthesized, where the claim asks for the value `0`. -/
theorem initHeaders_no_content_length_for_zero :
    emptyBodyRequest.Body.isSome = true ∧ emptyBodyRequest.ContentLength = 0 ∧
    hGet (entriesOf emptyBodyRequest.Header) (str "Content-Length") = none ∧
    hGet (entriesOf (initHeaders 64 emptyBodyRequest).Header) (str "Content-Length") = none := by
  decide

/-- Where `int` has 32 bits, the conversion `int(r.ContentLength)` wraps: a
body of length 2^32 + 5 gets the header `Content-Length: 5`. -/
theorem initHeaders_content_length_wraps_on_32_bits :
    hGet (entriesOf (initHeaders 32 hugeBodyRequest).Header) (str "Content-Length")
      = some [str "5"] ∧
    hGet (entriesOf (initHeaders 64 hugeBodyRequest).Header) (str "Content-Length")
      = some [str "4294967301"] := by
  decide

/-- C2, amended: for a request with a present body whose length `n` is known,
positive and representable in the platform `int` (every positive `int64` where
`int` has 64 bits), `initHeaders` sets `Content-Length` to the single decimal
value of `n` when the caller set no `Content-Length`; a `Content-Length` entry
set by the caller is left unchanged. -/
theorem initHeaders_content_length (bits : Nat) (r : Request) :
    (∀ n : Nat, r.Body.isSome = true → r.ContentLength = (n : Int) → 0 < n →
      n < 2 ^ (bits - 1) →
      hGet (entriesOf r.Header) (str "Content-Length") = none →
      hGet (entriesOf (initHeaders bits r).Header) (str "Content-Length")
        = some [str (Nat.repr n)]) ∧
    (∀ v, hGet (entriesOf r.Header) (str "Content-Length") = some v →
      hGet (entriesOf (initHeaders bits r).Header) (str "Content-Length") = some v) := by
  have hu : str "User-Agent" ≠ str "Content-Length" := by decide
  have hc : str "Connection" ≠ str "Content-Length" := by decide
  simp only [initHeaders, entriesOf_some]
  generalize entriesOf r.Header = h0
  constructor
  · intro n hb hL hpos hfit hnone
    have hpos2 : r.ContentLength > 0 := by rw [hL]; exact_mod_cast hpos
    have hrepr : Itoa (toInt bits r.ContentLength) = str (Nat.repr n) := by
      rw [hL, toInt_of_fits bits n hfit hpos]
      rfl
    simp only [hb, if_true, hpos2, hrepr]
    split_ifs <;> simp_all [hGet_hSet, hu, hc]
  · intro v h
    split_ifs <;> simp_all [hGet_hSet, hu, hc]

theorem initHeaders_content_length_witness :
    (postRequest.Body.isSome = true ∧ postRequest.ContentLength = ((5 : Nat) : Int) ∧
      0 < 5 ∧ 5 < 2 ^ (64 - 1) ∧
      hGet (entriesOf postRequest.Header) (str "Content-Length") = none ∧
      hGet (entriesOf (initHeaders 64 postRequest).Header) (str "Content-Length")
        = some [str (Nat.repr 5)]) ∧
    (hGet (entriesOf explicitRequest.Header) (str "Content-Length") = some [str "7"] ∧
      hGet (entriesOf (initHeaders 64 explicitRequest).Header) (str "Content-Length")
        = some [str "7"]) :=
  ⟨⟨by decide, by decide, by decide, by decide, by decide,
    (initHeaders_content_length 64 postRequest).1 5 (by decide) (by decide) (by decide)
      (by decide) (by decide)⟩,
   ⟨by decide, (initHeaders_content_length 64 explicitRequest).2 _ (by decide)⟩⟩


/-! ## `makeHeaders` and `populateResponseHeaders` -/

theorem hGet_eq_none_of_not_mem (l : Header) (k : GoString) (hk : k ∉ l.map Prod.fst) :
    hGet l k = none := by
  induction l with
  | nil => rfl
  | cons e t ih =>
    obtain ⟨k0, v0⟩ := e
    simp only [List.map_cons, List.mem_cons, not_or] at hk
    have h0 : ¬ k0 = k := fun h => hk.1 h.symm
    simp [hGet, h0, ih hk.2]

theorem hGet_eq_some_iff (l : Header) (hl : (l.map Prod.fst).Nodup) (k : GoString)
    (v : List GoString) : hGet l k = some v ↔ (k, v) ∈ l := by
  induction l with
  | nil => simp [hGet]
  | cons e t ih =>
    obtain ⟨k0, v0⟩ := e
    simp only [List.map_cons, List.nodup_cons] at hl
    by_cases h0 : k0 = k
    · subst h0
      have hnot : ∀ w, (k0, w) ∉ t := fun w hw => hl.1 (List.mem_map_of_mem Prod.fst hw)
      simp only [hGet, if_true, Option.some.injEq, List.mem_cons, Prod.mk.injEq, true_and]
      constructor
      · intro h
        exact Or.inl h.symm
      · rintro (h | h)
        · exact h.symm
        · exact absurd h (hnot v)
    · have h1 : ¬ k = k0 := fun h => h0 h.symm
      simp [hGet, h0, h1, ih hl.2]

theorem hGet_perm (l m : Header) (hm : (m.map Prod.fst).Nodup) (hp : l.Perm m) (k : GoString) :
    hGet l k = hGet m k := by
  have hl : (l.map Prod.fst).Nodup := (hp.map Prod.fst).nodup_iff.mpr hm
  apply Option.ext
  intro v
  simp only [Option.mem_def]
  rw [hGet_eq_some_iff l hl, hGet_eq_some_iff m hm]
  exact hp.mem_iff

theorem foldl_append_pairs (k : GoString) (vs : List GoString)
    (acc : List (FieldKey × FieldValue)) :
    vs.foldl (fun acc s => acc ++ [(k, s)]) acc = acc ++ vs.map (fun s => (k, s)) := by
  induction vs generalizing acc with
  | nil => simp
  | cons s t ih => simp [ih]

theorem makeHeaders_eq_flatMap (visited : List (GoString × List GoString)) :
    makeHeaders visited = visited.flatMap (fun kv => kv.2.map (fun s => (kv.1, s))) := by
  have key : ∀ acc : List (FieldKey × FieldValue),
      visited.foldl (fun strstr kv => kv.2.foldl (fun acc s => acc ++ [(kv.1, s)]) strstr) acc
        = acc ++ visited.flatMap (fun kv => kv.2.map (fun s => (kv.1, s))) := by
    induction visited with
    | nil => simp
    | cons e t ih =>
      intro acc
      simp only [List.foldl_cons, List.flatMap_cons]
      rw [ih, foldl_append_pairs, List.append_assoc]
  simpa [makeHeaders] using key []

theorem valuesOf_append (a b : List (FieldKey × FieldValue)) (k : GoString) :
    valuesOf (a ++ b) k = valuesOf a k ++ valuesOf b k := by
  simp [valuesOf]

theorem valuesOf_pairs (k0 k : GoString) (vs : List GoString) :
    valuesOf (vs.map (fun s => (k0, s))) k = if k0 = k then vs else [] := by
  by_cases h : k0 = k
  · simp [valuesOf, h, List.filter_map, Function.comp_def]
  · simp [valuesOf, h, List.filter_map, Function.comp_def]

theorem valuesOf_makeHeaders (visited : Header) (hv : (visited.map Prod.fst).Nodup)
    (k : GoString) : valuesOf (makeHeaders visited) k = hIndex visited k := by
  rw [makeHeaders_eq_flatMap]
  induction visited with
  | nil => simp [valuesOf, hIndex, hGet]
  | cons e t ih =>
    obtain ⟨k0, v0⟩ := e
    simp only [List.map_cons, List.nodup_cons] at hv
    simp only [List.flatMap_cons, valuesOf_append, valuesOf_pairs, ih hv.2]
    by_cases h0 : k0 = k
    · subst h0
      simp [hIndex, hGet, hGet_eq_none_of_not_mem t k0 hv.1]
    · simp [hIndex, hGet, h0]

theorem valuesOf_cons (k0 : FieldKey) (v0 : FieldValue) (fs : List (FieldKey × FieldValue))
    (k : GoString) :
    valuesOf ((k0, v0) :: fs) k = if k0 = k then v0 :: valuesOf fs k else valuesOf fs k := by
  by_cases h : k0 = k <;> simp [valuesOf, List.filter_cons, h]

theorem hGet_populate (fields : List (FieldKey × FieldValue)) (h : Header) (k : GoString) :
    hGet (fields.foldl (fun h field => hSet h field.1 (hIndex h field.1 ++ [field.2])) h) k
      = if valuesOf fields k = [] then hGet h k
        else some (hIndex h k ++ valuesOf fields k) := by
  induction fields generalizing h with
  | nil => simp [valuesOf]
  | cons f fs ih =>
    obtain ⟨k0, v0⟩ := f
    simp only [List.foldl_cons]
    rw [ih, valuesOf_cons]
    by_cases h0 : k0 = k
    · subst h0
      by_cases h1 : valuesOf fs k0 = [] <;> simp [hGet_hSet, hIndex, h1]
    · by_cases h1 : valuesOf fs k = [] <;> simp [hGet_hSet, hIndex, h0, h1]

/-- C1, as stated, fails for a header map with a name whose list of values is
empty: `makeHeaders` emits no field for it, so the name is missing after
`populateResponseHeaders`. -/
theorem roundtrip_loses_name_without_values :
    hGet emptyValueHeader (str "X-Empty") = some [] ∧
    hGet (entriesOf
      (populateResponseHeaders (makeHeaders emptyValueHeader) ⟨200, some [], []⟩).Header)
      (str "X-Empty") = none := by
  decide

/-- C1, amended: for every header map `M` and every order `visited` in which
its entries are iterated, `populateResponseHeaders` applied to the fields of
`makeHeaders`, starting from a response with an empty header map, yields a map
that has exactly the names of `M` with at least one value, each with the same
values in the same order as in `M`; a name whose list of values is empty in `M`
is absent from the result. -/
theorem makeHeaders_populateResponseHeaders_roundtrip (M : Header)
    (hM : (M.map Prod.fst).Nodup) (visited : List (GoString × List GoString))
    (hperm : visited.Perm M) (r : Response) (hr : entriesOf r.Header = []) (k : GoString) :
    (∀ v, hGet M k = some v → v ≠ [] →
      hGet (entriesOf (populateResponseHeaders (makeHeaders visited) r).Header) k = some v) ∧
    (hGet M k = some [] →
      hGet (entriesOf (populateResponseHeaders (makeHeaders visited) r).Header) k = none) ∧
    (hGet M k = none →
      hGet (entriesOf (populateResponseHeaders (makeHeaders visited) r).Header) k = none) := by
  have hv : (visited.map Prod.fst).Nodup := (hperm.map Prod.fst).nodup_iff.mpr hM
  have hget : hGet (entriesOf (populateResponseHeaders (makeHeaders visited) r).Header) k
      = if hIndex M k = [] then none else some (hIndex M k) := by
    simp only [populateResponseHeaders, entriesOf_some, hr]
    rw [hGet_populate, valuesOf_makeHeaders visited hv, hIndex, hGet_perm visited M hM hperm]
    simp [hIndex, hGet]
  rw [hget]
  refine ⟨?_, ?_, ?_⟩
  · intro v h hne
    simp [hIndex, h, hne]
  · intro h
    simp [hIndex, h]
  · intro h
    simp [hIndex, h]

theorem makeHeaders_populateResponseHeaders_roundtrip_witness :
    (sampleHeader.map Prod.fst).Nodup ∧ sampleHeader.reverse.Perm sampleHeader ∧
    entriesOf (Response.mk 200 none []).Header = [] ∧
    hGet sampleHeader (str "Accept") = some [str "text/html", str "text/plain"] ∧
    hGet (entriesOf
      (populateResponseHeaders (makeHeaders sampleHeader.reverse) ⟨200, none, []⟩).Header)
      (str "Accept") = some [str "text/html", str "text/plain"] :=
  ⟨by decide, List.reverse_perm _, rfl, by decide,
    (makeHeaders_populateResponseHeaders_roundtrip sampleHeader (by decide) sampleHeader.reverse
      (List.reverse_perm _) ⟨200, none, []⟩ rfl (str "Accept")).1 _ (by decide) (by decide)⟩

/-! ## The read loop -/

theorem readLoop_ok_chunks (read : Nat → ReadResult) (chunks : List (List Byte)) :
    ∀ (fuel k : Nat) (data : List Byte) (trace : List Ev),
      (∀ i (hi : i < chunks.length), read (k + i) = ReadResult.ok (chunks.get ⟨i, hi⟩)) →
      chunks.length ≤ fuel →
      readLoop read fuel k data trace
        = readLoop read (fuel - chunks.length) (k + chunks.length) (data ++ chunks.flatten)
            (trace ++ readCalls chunks.length) := by
  induction chunks with
  | nil =>
    intro fuel k data trace _ _
    simp [readCalls]
  | cons c cs ih =>
    intro fuel k data trace hok hfuel
    cases fuel with
    | zero => simp at hfuel
    | succ f =>
      have h0 : read k = ReadResult.ok c := by
        have := hok 0 (by simp)
        simpa using this
      have hrest : ∀ i (hi : i < cs.length),
          read (k + 1 + i) = ReadResult.ok (cs.get ⟨i, hi⟩) := by
        intro i hi
        have := hok (i + 1) (by simp; omega)
        have hidx : k + 1 + i = k + (i + 1) := by omega
        rw [hidx]
        simpa using this
      have hf : cs.length ≤ f := by
        simp at hfuel
        omega
      rw [readLoop, h0]
      simp only
      rw [ih f (k + 1) (data ++ c) _ hrest hf]
      have e1 : f + 1 - (c :: cs).length = f - cs.length := by simp
      have e2 : k + 1 + cs.length = k + (c :: cs).length := by simp; omega
      rw [e1, e2]
      simp [readCalls, List.append_assoc]

theorem readLoop_trace (read : Nat → ReadResult) :
    ∀ (fuel k : Nat) (data : List Byte) (trace : List Ev),
      ∃ m, (readLoop read fuel k data trace).2 = trace ++ readCalls m := by
  intro fuel
  induction fuel with
  | zero =>
    intro k data trace
    exact ⟨0, by simp [readLoop, readCalls]⟩
  | succ f ih =>
    intro k data trace
    rw [readLoop]
    rcases hr : read k with chunk | e
    · obtain ⟨m, hm⟩ := ih (k + 1) (data ++ chunk)
        (trace ++ [Ev.block Res.inputPollable, Ev.read (64 * 1024)])
      exact ⟨m + 1, by simp [hm, readCalls]⟩
    · cases e <;> exact ⟨1, by simp [readCalls]⟩

theorem countP_isRead_readCalls (n : Nat) : (readCalls n).countP Ev.isRead = n := by
  induction n with
  | zero => rfl
  | succ n ih => simp [readCalls, List.countP_cons, Ev.isRead, ih]

theorem filter_readCalls (q : Ev → Bool) (hb : ∀ r, q (Ev.block r) = false)
    (hr : ∀ n, q (Ev.read n) = false) (n : Nat) : (readCalls n).filter q = [] := by
  induction n with
  | zero => rfl
  | succ n ih => simp [readCalls, List.filter_cons, hb, hr, ih]

/-! ## `RoundTrip`, stage by stage -/

theorem isBuild_other (e : Ev) (h : e.isBuild = true) :
    e.isRead = false ∧ e.isGet = false ∧ e.isSubscribe = false ∧ e.isBlock = false ∧
      e.isExtract = false ∧ e.isFinish = false := by
  cases e <;> simp_all [Ev.isBuild, Ev.isRead, Ev.isGet, Ev.isSubscribe, Ev.isBlock,
    Ev.isExtract, Ev.isFinish]

theorem isBuild_requestCalls (host : Host) (r : Request) :
    ∀ e ∈ requestCalls host r, e.isBuild = true := by
  intro e he
  simp only [requestCalls, List.mem_cons, List.mem_singleton, List.not_mem_nil, or_false] at he
  rcases he with rfl | rfl | rfl | rfl | rfl | rfl <;> rfl

theorem RoundTrip_reaches_handle (p : Platform) (host : Host) (r : Request)
    (h : ReachesHandle p host r) :
    ∃ t : List Ev, (∀ e ∈ t, e.isBuild = true) ∧
      ∀ fuel, RoundTrip p host r fuel = exchange host t fuel := by
  obtain ⟨hf, hb⟩ := h
  unfold BodyWritten at hb
  have hbody0 : (initHeaders p.intBits r).Body = r.Body := rfl
  rcases hbody : r.Body with _ | b
  · refine ⟨Ev.fieldsFromList
      (makeHeaders (p.range (entriesOf (initHeaders p.intBits r).Header))) true
        :: requestCalls host (initHeaders p.intBits r), ?_, fun fuel => ?_⟩
    · intro e he
      rcases List.mem_cons.mp he with rfl | he
      · rfl
      · exact isBuild_requestCalls _ _ e he
    · unfold RoundTrip
      simp only [hf, hbody0, hbody]
      rfl
  · rw [hbody] at hb
    obtain ⟨⟨contents, rfl⟩, hrb, hbw⟩ := hb
    refine ⟨Ev.fieldsFromList
      (makeHeaders (p.range (entriesOf (initHeaders p.intBits r).Header))) true
        :: (requestCalls host (initHeaders p.intBits r) ++
          [Ev.bodyWrite true, Ev.blockingWriteAndFlush contents,
            Ev.resourceDrop Res.outputStream]), ?_, fun fuel => ?_⟩
    · intro e he
      rcases List.mem_cons.mp he with rfl | he
      · rfl
      · rcases List.mem_append.mp he with he | he
        · exact isBuild_requestCalls _ _ e he
        · simp only [List.mem_cons, List.mem_singleton, List.not_mem_nil, or_false] at he
          rcases he with rfl | rfl | rfl <;> rfl
    · unfold RoundTrip
      simp only [hf, hbody0, hbody, hrb, hbw]
      simp

theorem exchange_rejected (host : Host) (t : List Ev) (fuel : Nat)
    (h : host.handle = false) :
    exchange host t fuel
      = leave (Outcome.panic "Failed to call client.") (t ++ [Ev.handle false]) [] := by
  simp [exchange, h]

theorem exchange_taken (host : Host) (t : List Ev) (fuel : Nat) (hh : host.handle = true)
    (hb : host.requestBody = true) (hf : host.firstGet ≠ FutureResult.pending) :
    exchange host t fuel
      = leave (Outcome.error "result already taken")
          (t ++ [Ev.handle true, Ev.outgoingBodyFinish none,
            Ev.futureGet host.firstGet.probe]) [Res.future] := by
  unfold exchange
  cases h1 : host.firstGet <;> simp_all

theorem exchange_delivers (host : Host) (t : List Ev) (fuel : Nat) (resp : IncomingResponse)
    (hh : host.handle = true) (hb : host.requestBody = true)
    (h1 : host.firstGet = FutureResult.pending)
    (h2 : host.secondGet = FutureResult.response resp) :
    exchange host t fuel
      = readResponse resp
          (t ++ [Ev.handle true, Ev.outgoingBodyFinish none, Ev.futureGet Probe.pending,
            Ev.futureSubscribe, Ev.block Res.futurePollable, Ev.futureGet Probe.response])
          fuel := by
  unfold exchange
  simp [hh, hb, h1, h2, FutureResult.probe]

theorem readCalls_succ (n : Nat) :
    readCalls n ++ [Ev.block Res.inputPollable, Ev.read (64 * 1024)] = readCalls (n + 1) := by
  induction n with
  | zero => rfl
  | succ n ih =>
    rw [readCalls, List.cons_append, List.cons_append, ih]
    rfl

theorem readLoop_until (read : Nat → ReadResult) (chunks : List (List Byte))
    (e : StreamError) (t : List Ev) (fuel : Nat)
    (hok : ∀ i (hi : i < chunks.length), read i = ReadResult.ok (chunks.get ⟨i, hi⟩))
    (hend : read chunks.length = ReadResult.err e) (hfuel : chunks.length < fuel) :
    readLoop read fuel 0 [] t
      = (if e = StreamError.closed then LoopExit.done chunks.flatten else LoopExit.failed,
        t ++ readCalls (chunks.length + 1)) := by
  have hok2 : ∀ i (hi : i < chunks.length),
      read (0 + i) = ReadResult.ok (chunks.get ⟨i, hi⟩) := by
    intro i hi
    rw [Nat.zero_add]
    exact hok i hi
  rw [readLoop_ok_chunks read chunks fuel 0 [] t hok2 (Nat.le_of_lt hfuel)]
  obtain ⟨f, hf⟩ : ∃ f, fuel - chunks.length = f + 1 := ⟨fuel - chunks.length - 1, by omega⟩
  rw [hf, readLoop, Nat.zero_add, hend, ← readCalls_succ]
  cases e <;> simp [List.append_assoc]

/-! ## The claims about `RoundTrip` -/

/-- C4: when the response stream answers the chunks `c1 .. cn` as successful
reads and then the closed signal, the read loop of `RoundTrip` ends with enough
fuel (more than `n` rounds), the body returned is `c1 ++ ... ++ cn`, and exactly
`n + 1` reads are issued: none after the closed signal. -/
theorem RoundTrip_reads_chunks_until_closed (p : Platform) (host : Host) (r : Request)
    (resp : IncomingResponse) (hd : Delivers p host r resp) (chunks : List (List Byte))
    (hok : ∀ i (hi : i < chunks.length), resp.read i = ReadResult.ok (chunks.get ⟨i, hi⟩))
    (hclosed : resp.read chunks.length = ReadResult.err StreamError.closed)
    (fuel : Nat) (hfuel : chunks.length < fuel) :
    (RoundTrip p host r fuel).outcome
      = Outcome.response
          { populateResponseHeaders resp.entries ⟨(resp.status : Int), some [], []⟩ with
            Body := chunks.flatten } ∧
    (RoundTrip p host r fuel).trace.countP Ev.isRead = chunks.length + 1 := by
  obtain ⟨⟨hreach, hh, hb⟩, h1, h2, hc, hs⟩ := hd
  obtain ⟨t, ht, hrun⟩ := RoundTrip_reaches_handle p host r hreach
  have hcount : t.countP Ev.isRead = 0 := by
    rw [List.countP_eq_zero]
    intro e he
    simp [(isBuild_other e (ht e he)).1]
  rw [hrun fuel, exchange_delivers host t fuel resp hh hb h1 h2]
  unfold readResponse
  simp only [hc, hs, Bool.not_true, Bool.false_eq_true, if_false]
  rw [readLoop_until resp.read chunks StreamError.closed _ fuel hok hclosed hfuel]
  simp [leave, List.countP_append, List.countP_cons, hcount, countP_isRead_readCalls,
    Ev.isRead]

/-- C5: when the response stream, after any number of successful chunk reads,
answers a stream error other than the closed signal, `RoundTrip` returns the
error `error reading response stream` and no response. -/
theorem RoundTrip_read_failure (p : Platform) (host : Host) (r : Request)
    (resp : IncomingResponse) (hd : Delivers p host r resp) (chunks : List (List Byte))
    (e : StreamError) (he : e ≠ StreamError.closed)
    (hok : ∀ i (hi : i < chunks.length), resp.read i = ReadResult.ok (chunks.get ⟨i, hi⟩))
    (hfail : resp.read chunks.length = ReadResult.err e)
    (fuel : Nat) (hfuel : chunks.length < fuel) :
    (RoundTrip p host r fuel).outcome = Outcome.error "error reading response stream" := by
  obtain ⟨⟨hreach, hh, hb⟩, h1, h2, hc, hs⟩ := hd
  obtain ⟨t, _, hrun⟩ := RoundTrip_reaches_handle p host r hreach
  rw [hrun fuel, exchange_delivers host t fuel resp hh hb h1 h2]
  unfold readResponse
  simp only [hc, hs, Bool.not_true, Bool.false_eq_true, if_false]
  rw [readLoop_until resp.read chunks e _ fuel hok hfail hfuel]
  cases e with
  | closed => exact absurd rfl he
  | lastOperationFailed => simp [leave]

/-- C6: when the submission is accepted and the first probe of the future,
before any wait, is not pending, `RoundTrip` returns the error `result already
taken` and no response; it probes the future once, and neither subscribes to it,
nor blocks, nor makes a call on a response. -/
theorem RoundTrip_result_already_taken (p : Platform) (host : Host) (r : Request)
    (hs : Submitted p host r) (hfirst : host.firstGet ≠ FutureResult.pending) (fuel : Nat) :
    (RoundTrip p host r fuel).outcome = Outcome.error "result already taken" ∧
    (RoundTrip p host r fuel).trace.countP Ev.isGet = 1 ∧
    ∀ e ∈ (RoundTrip p host r fuel).trace,
      e.isSubscribe = false ∧ e.isBlock = false ∧ e.isExtract = false := by
  obtain ⟨hreach, hh, hb⟩ := hs
  obtain ⟨t, ht, hrun⟩ := RoundTrip_reaches_handle p host r hreach
  have hcount : t.countP Ev.isGet = 0 := by
    rw [List.countP_eq_zero]
    intro e he
    simp [(isBuild_other e (ht e he)).2.1]
  rw [hrun fuel, exchange_taken host t fuel hh hb hfirst]
  refine ⟨rfl, ?_, ?_⟩
  · simp [leave, List.countP_append, List.countP_cons, hcount, Ev.isGet]
  · intro e he
    simp only [leave, List.map_cons, List.map_nil, List.mem_append, List.mem_cons,
      List.mem_singleton, List.not_mem_nil, or_false] at he
    rcases he with (he | rfl | rfl | rfl) | rfl
    · have := isBuild_other e (ht e he)
      exact ⟨this.2.2.1, this.2.2.2.1, this.2.2.2.2.1⟩
    all_goals exact ⟨rfl, rfl, rfl⟩

/-- C8, as stated, fails when the host handler rejects the submission:
`RoundTrip` aborts with a panic instead of returning an error. -/
theorem RoundTrip_panics_on_rejected_submission :
    rejectingHost.handle = false ∧
    (RoundTrip samplePlatform rejectingHost getRequest 8).outcome
      = Outcome.panic "Failed to call client." := by
  decide

/-- C8, amended: when the host handler rejects the submission, `RoundTrip`
returns neither a response nor an error to its caller: it aborts with the panic
`Failed to call client.`. -/
theorem RoundTrip_rejected_submission (p : Platform) (host : Host) (r : Request)
    (hreach : ReachesHandle p host r) (hrej : host.handle = false) (fuel : Nat) :
    (RoundTrip p host r fuel).outcome = Outcome.panic "Failed to call client." := by
  obtain ⟨t, _, hrun⟩ := RoundTrip_reaches_handle p host r hreach
  rw [hrun fuel, exchange_rejected host t fuel hrej]
  rfl

/-- C9 fails at a future that holds the response at the first probe:
`RoundTrip` returns `result already taken` and drops only the future, so the
incoming response that the probe handed over is never released. -/
theorem RoundTrip_leaks_response_of_first_probe :
    (RoundTrip samplePlatform readyHost getRequest 8).outcome
      = Outcome.error "result already taken" ∧
    acquireCount Res.incomingResponse (RoundTrip samplePlatform readyHost getRequest 8).trace = 1 ∧
    dropCount Res.incomingResponse (RoundTrip samplePlatform readyHost getRequest 8).trace = 0 ∧
    dropCount Res.future (RoundTrip samplePlatform readyHost getRequest 8).trace = 1 := by
  decide

/-! ## Body-finish and write calls -/

theorem filter_readResponse (q : Ev → Bool)
    (hq : ∀ e : Ev, (e.isSink || e.isWrite || e.isFinish) = false → q e = false)
    (resp : IncomingResponse) (t : List Ev) (fuel : Nat) :
    (readResponse resp t fuel).trace.filter q = t.filter q := by
  have hcalls : ∀ n, (readCalls n).filter q = [] :=
    filter_readCalls q (fun _ => hq _ rfl) (fun _ => hq _ rfl)
  have hdrop : ∀ r, q (Ev.resourceDrop r) = false := fun _ => hq _ rfl
  have h1 : q Ev.status = false := hq _ rfl
  have h2 : q Ev.headers = false := hq _ rfl
  have h3 : q Ev.entries = false := hq _ rfl
  have h4 : ∀ b, q (Ev.consume b) = false := fun _ => hq _ rfl
  have h5 : ∀ b, q (Ev.bodyStream b) = false := fun _ => hq _ rfl
  have h6 : q Ev.streamSubscribe = false := hq _ rfl
  unfold readResponse
  cases hc : resp.consume
  · simp [leave, List.filter_cons, h1, h2, h3, h4, hdrop]
  · cases hs : resp.stream
    · simp [leave, List.filter_cons, h1, h2, h3, h4, h5, hdrop]
    · obtain ⟨m, hm⟩ := readLoop_trace resp.read fuel 0 []
        (t ++ [Ev.status, Ev.headers, Ev.entries, Ev.resourceDrop Res.responseFields,
          Ev.consume true, Ev.bodyStream true, Ev.streamSubscribe])
      simp only [Bool.not_true, Bool.false_eq_true, if_false, List.append_assoc,
        List.cons_append, List.nil_append]
      split <;>
        simp [leave, hm, List.filter_cons, h1, h2, h3, h4, h5, h6, hdrop, hcalls]

theorem filter_exchange (q : Ev → Bool)
    (hq : ∀ e : Ev, (e.isSink || e.isWrite || e.isFinish) = false → q e = false)
    (host : Host) (t : List Ev) (fuel : Nat) :
    (exchange host t fuel).trace.filter q
      = t.filter q ++
        (if host.handle = true ∧ host.requestBody = true then
          [Ev.outgoingBodyFinish none].filter q else []) := by
  have hdrop : ∀ r, q (Ev.resourceDrop r) = false := fun _ => hq _ rfl
  have h1 : ∀ b, q (Ev.handle b) = false := fun _ => hq _ rfl
  have h2 : ∀ a, q (Ev.futureGet a) = false := fun _ => hq _ rfl
  have h3 : q Ev.futureSubscribe = false := hq _ rfl
  have h4 : ∀ r, q (Ev.block r) = false := fun _ => hq _ rfl
  unfold exchange
  cases hh : host.handle
  · simp [leave, h1]
  · cases hb : host.requestBody
    · simp [leave, h1]
    · simp only [Bool.not_true, Bool.false_eq_true, if_false, and_self, if_true]
      cases hf : host.firstGet
      case pending =>
        cases hsnd : host.secondGet
        case response resp =>
          simp only [filter_readResponse q hq]
          simp [List.filter_cons, h1, h2, h3, h4]
        all_goals simp [leave, List.filter_cons, h1, h2, h3, h4, hdrop]
      all_goals simp [leave, List.filter_cons, h1, h2, hdrop]

/-- C7, as stated, fails when the host handler rejects the submission of a
request with a nil body: `RoundTrip` panics before the body-finish call, which
is then made zero times. -/
theorem RoundTrip_no_finish_on_rejected_submission :
    getRequest.Body = none ∧
    (RoundTrip samplePlatform rejectingHost getRequest 8).trace.countP Ev.isFinish = 0 :=
  ⟨rfl, by decide⟩

/-- C7, amended: for a request with a nil body, `RoundTrip` never acquires the
write sink and never calls the blocking write-and-flush; it makes at most one
body-finish call, always without trailers, and exactly one when the header
field list is accepted, the outgoing body is obtained and the host handler
accepts the submission. -/
theorem RoundTrip_nil_body_finish (p : Platform) (host : Host) (r : Request) (fuel : Nat)
    (hnil : r.Body = none) :
    (RoundTrip p host r fuel).trace.filter (fun e => e.isSink || e.isWrite) = [] ∧
    ((RoundTrip p host r fuel).trace.filter Ev.isFinish = [] ∨
      (RoundTrip p host r fuel).trace.filter Ev.isFinish = [Ev.outgoingBodyFinish none]) ∧
    (host.fieldsFromList
        (makeHeaders (p.range (entriesOf (initHeaders p.intBits r).Header))) = true →
      host.requestBody = true → host.handle = true →
      (RoundTrip p host r fuel).trace.filter Ev.isFinish = [Ev.outgoingBodyFinish none]) := by
  have hbody0 : (initHeaders p.intBits r).Body = r.Body := rfl
  have hq1 : ∀ e : Ev, (e.isSink || e.isWrite || e.isFinish) = false →
      (fun e : Ev => e.isSink || e.isWrite) e = false := by
    intro e he
    cases e <;> simp_all [Ev.isSink, Ev.isWrite, Ev.isFinish]
  have hq2 : ∀ e : Ev, (e.isSink || e.isWrite || e.isFinish) = false →
      Ev.isFinish e = false := by
    intro e he
    cases e <;> simp_all [Ev.isSink, Ev.isWrite, Ev.isFinish]
  cases hf : host.fieldsFromList
      (makeHeaders (p.range (entriesOf (initHeaders p.intBits r).Header)))
  · have hrun : RoundTrip p host r fuel
        = leave (Outcome.panic nilDereference)
            [Ev.fieldsFromList
              (makeHeaders (p.range (entriesOf (initHeaders p.intBits r).Header))) false] [] := by
      unfold RoundTrip
      simp only [hf]
      rfl
    rw [hrun]
    simp [leave, Ev.isSink, Ev.isWrite, Ev.isFinish]
  · have hrun : RoundTrip p host r fuel
        = exchange host
            ([Ev.fieldsFromList
              (makeHeaders (p.range (entriesOf (initHeaders p.intBits r).Header))) true]
              ++ requestCalls host (initHeaders p.intBits r)) fuel := by
      unfold RoundTrip
      simp only [hf, hbody0, hnil]
      rfl
    rw [hrun, filter_exchange _ hq1, filter_exchange _ hq2]
    refine ⟨?_, ?_, ?_⟩
    · simp [requestCalls, Ev.isSink, Ev.isWrite]
    · by_cases hc : host.handle = true ∧ host.requestBody = true
      · right
        simp [requestCalls, Ev.isFinish, hc]
      · left
        simp [requestCalls, Ev.isFinish, hc]
    · intro _ hb hh
      simp [requestCalls, Ev.isFinish, hb, hh]

/-! ## The theorems at sample exchanges -/

theorem delivers_sample (resp : IncomingResponse) (hc : resp.consume = true)
    (hs : resp.stream = true) :
    Delivers samplePlatform (hostAnswering resp) getRequest resp :=
  ⟨⟨⟨rfl, trivial⟩, rfl, rfl⟩, rfl, rfl, hc, hs⟩

theorem RoundTrip_reads_chunks_until_closed_witness :
    Delivers samplePlatform (hostAnswering threeChunkResponse) getRequest threeChunkResponse ∧
    threeChunkResponse.read threeChunks.length = ReadResult.err StreamError.closed ∧
    threeChunks.length < 4 ∧
    (RoundTrip samplePlatform (hostAnswering threeChunkResponse) getRequest 4).outcome
      = Outcome.response
          { populateResponseHeaders threeChunkResponse.entries
              ⟨(threeChunkResponse.status : Int), some [], []⟩ with
            Body := threeChunks.flatten } ∧
    (RoundTrip samplePlatform (hostAnswering threeChunkResponse) getRequest 4).trace.countP
      Ev.isRead = threeChunks.length + 1 :=
  ⟨delivers_sample threeChunkResponse rfl rfl, rfl, by decide,
    RoundTrip_reads_chunks_until_closed samplePlatform (hostAnswering threeChunkResponse)
      getRequest threeChunkResponse (delivers_sample threeChunkResponse rfl rfl) threeChunks
      (fun i hi => by simp [threeChunkResponse, List.getElem?_eq_getElem hi]) rfl 4 (by decide)⟩

theorem RoundTrip_read_failure_witness :
    Delivers samplePlatform (hostAnswering brokenResponse) getRequest brokenResponse ∧
    brokenResponse.read 0 = ReadResult.ok (str "hel") ∧
    brokenResponse.read 1 = ReadResult.err StreamError.lastOperationFailed ∧
    (RoundTrip samplePlatform (hostAnswering brokenResponse) getRequest 2).outcome
      = Outcome.error "error reading response stream" :=
  ⟨delivers_sample brokenResponse rfl rfl, rfl, rfl,
    RoundTrip_read_failure samplePlatform (hostAnswering brokenResponse) getRequest
      brokenResponse (delivers_sample brokenResponse rfl rfl) [str "hel"]
      StreamError.lastOperationFailed (by decide)
      (fun i hi => by
        have h0 : i = 0 := by simpa using hi
        subst h0
        rfl)
      rfl 2 (by decide)⟩

theorem RoundTrip_result_already_taken_witness :
    Submitted samplePlatform readyHost getRequest ∧
    readyHost.firstGet.probe = Probe.response ∧
    (RoundTrip samplePlatform readyHost getRequest 8).outcome
      = Outcome.error "result already taken" ∧
    (RoundTrip samplePlatform readyHost getRequest 8).trace.countP Ev.isGet = 1 :=
  ⟨⟨⟨rfl, trivial⟩, rfl, rfl⟩, rfl,
    (RoundTrip_result_already_taken samplePlatform readyHost getRequest
      ⟨⟨rfl, trivial⟩, rfl, rfl⟩ (by simp [readyHost]) 8).1,
    (RoundTrip_result_already_taken samplePlatform readyHost getRequest
      ⟨⟨rfl, trivial⟩, rfl, rfl⟩ (by simp [readyHost]) 8).2.1⟩

theorem RoundTrip_rejected_submission_witness :
    ReachesHandle samplePlatform rejectingHost postRequest ∧ rejectingHost.handle = false ∧
    (RoundTrip samplePlatform rejectingHost postRequest 8).outcome
      = Outcome.panic "Failed to call client." :=
  ⟨⟨rfl, ⟨_, rfl⟩, rfl, rfl⟩, rfl,
    RoundTrip_rejected_submission samplePlatform rejectingHost postRequest
      ⟨rfl, ⟨_, rfl⟩, rfl, rfl⟩ rfl 8⟩

theorem RoundTrip_nil_body_finish_witness :
    getRequest.Body = none ∧
    (RoundTrip samplePlatform (hostAnswering helloResponse) getRequest 8).trace.filter
      (fun e => e.isSink || e.isWrite) = [] ∧
    (RoundTrip samplePlatform (hostAnswering helloResponse) getRequest 8).trace.filter
      Ev.isFinish = [Ev.outgoingBodyFinish none] :=
  ⟨rfl,
    (RoundTrip_nil_body_finish samplePlatform (hostAnswering helloResponse) getRequest 8 rfl).1,
    (RoundTrip_nil_body_finish samplePlatform (hostAnswering helloResponse) getRequest 8
      rfl).2.2 rfl rfl rfl⟩

end Client
